import Mathlib

/-!
Shallow embedding of the worker-pool matrix multiplier of `src/matrix.rs`
and the dot product of `src/vector.rs` from the `rust-concurrency`
repository, with proofs of the specified properties.

The Rust code is generic over a numeric type `T` with
`Mul + Add + AddAssign + Default + Copy`; we embed it generically over a
type `α` with `Add`, `Mul` and `Zero` instances (`T::default()` is the
additive identity for the numeric instantiations the code is used at),
and instantiate at `Int` for concrete witnesses.  Fallible Rust code
(`anyhow::Result`) becomes `Except String`.

Concurrency is modelled by making the scheduler's freedom explicit as
data: each worker thread drains its own FIFO queue (`workerRun`), a
task's reply is available exactly when its worker has not terminated
before reaching it (`gatherAux`), and the orchestrator's reduce loop
reads the per-task one-shot channels in submission order
(`reducePhase`).  The values flowing through the channels are pure
functions of the inputs, so any interleaving yields the traces modelled
here; arrival-order independence of the final buffer is proved
separately (`applyReplies_perm_eq`).
-/

namespace RustConc

/-- `const THREAD_NUM: usize = 4;` (matrix.rs). -/
def THREAD_NUM : Nat := 4

/-- `Matrix<T> { data: Vec<T>, row: usize, col: usize }` (matrix.rs):
flat row-major buffer plus dimensions. -/
structure Matrix (α : Type) where
  data : List α
  row : Nat
  col : Nat
deriving DecidableEq

/-- `Matrix::new` (matrix.rs): stores the given buffer and dimensions,
performing no validation of `data.len()` against `row * col`. -/
def Matrix.new {α : Type} (data : List α) (row col : Nat) : Matrix α :=
  { data := data, row := row, col := col }

/-- `MsgInput<T> { idx, row, col }` (matrix.rs): one unit of work, the
linear output index together with the row and column operands. -/
structure MsgInput (α : Type) where
  idx : Nat
  row : List α
  col : List α
deriving DecidableEq

/-- Decidable equality for `Except`, used to evaluate the model at
concrete inputs. -/
instance {ε α : Type} [DecidableEq ε] [DecidableEq α] :
    DecidableEq (Except ε α) := fun x y =>
  match x, y with
  | .ok a, .ok b => decidable_of_iff (a = b) (by simp)
  | .error e, .error f => decidable_of_iff (e = f) (by simp)
  | .ok _, .error _ => isFalse (fun h => Except.noConfusion h)
  | .error _, .ok _ => isFalse (fun h => Except.noConfusion h)

/-- The accumulation loop of `dot_product` (vector.rs):
`let mut sum = T::default(); for i in 0..a.len() { sum += a[i] * b[i]; }`.
It is only reached when the two lengths are equal, so pairing the lists
is exact. -/
def sumZip {α : Type} [Add α] [Mul α] [Zero α] (a b : List α) : α :=
  (List.zipWith (fun x y => x * y) a b).foldl (fun s x => s + x) 0

/-- `dot_product` (vector.rs): bails when the lengths differ, otherwise
returns the accumulated inner product. -/
def dot_product {α : Type} [Add α] [Mul α] [Zero α] (a b : List α) :
    Except String α :=
  if a.length ≠ b.length then .error "Dot product error: a.len != b.len"
  else .ok (sumZip a b)

/-- Helper for `stepBy`: `c` counts how many elements remain to be
skipped before the next one is yielded. -/
def stepByAux {α : Type} : List α → Nat → Nat → List α
  | [], _, _ => []
  | x :: xs, k, 0 => x :: stepByAux xs k (k - 1)
  | _ :: xs, k, c + 1 => stepByAux xs k c

/-- Rust's `Iterator::step_by(k)` on a list: yields the first element,
then every `k`-th one after it.  In `multiply` it is only called with
`k = b.col ≥ 1` (the inner loop body runs only when `0 ≤ j < b.col`). -/
def stepBy {α : Type} (l : List α) (k : Nat) : List α :=
  stepByAux l k 0

/-- The map phase of `multiply` (matrix.rs): for every `(i, j)` in
row-major order build the task with linear index `i * b.col + j`, row
slice `a.data[i*a.col..(i+1)*a.col]` and column
`b.data[j..].iter().step_by(b.col)`.  (Rust's range slicing panics
where `drop`/`take` truncate; for inputs satisfying the
`data.len == row*col` invariant the two agree, as no access is out of
bounds.) -/
def buildTasks {α : Type} (a b : Matrix α) : List (MsgInput α) :=
  (List.range a.row).flatMap fun i =>
    (List.range b.col).map fun j =>
      { idx := i * b.col + j
        row := (a.data.drop (i * a.col)).take a.col
        col := stepBy (b.data.drop j) b.col }

/-- `senders[idx % THREAD_NUM]` (matrix.rs line 81): the worker a task
is routed to. -/
def workerOf {α : Type} (m : MsgInput α) : Nat := m.idx % THREAD_NUM

/-- The worker thread body (matrix.rs lines 45–56): drain the queue in
FIFO order; on a successful dot product send `MsgOutput {value, idx}` on
the task's one-shot channel; on a failure the `?` operator returns the
error from the closure, so the current message's reply sender is dropped
without a send and the remaining queued messages are dropped likewise.
Returns the list of replies actually sent and the closure's result. -/
def workerRun {α : Type} [Add α] [Mul α] [Zero α] :
    List (MsgInput α) → List (Nat × α) × Except String Unit
  | [] => ([], .ok ())
  | m :: ms =>
    match dot_product m.row m.col with
    | .error e => ([], .error e)
    | .ok v =>
      let r := workerRun ms
      ((m.idx, v) :: r.1, r.2)

/-- Per-task reply availability, in submission order.  A worker dies at
its first failing task (see `workerRun`); every task routed to a dead
worker — the failing task itself and all later ones in that worker's
queue — has its reply sender dropped without a send, so its one-shot
receive yields `none` (channel closed).  Otherwise the reply
`(idx, value)` is delivered. -/
def gatherAux {α : Type} [Add α] [Mul α] [Zero α] :
    List (MsgInput α) → List Nat → List (Option (Nat × α))
  | [], _ => []
  | m :: ms, dead =>
    if workerOf m ∈ dead then none :: gatherAux ms dead
    else
      match dot_product m.row m.col with
      | .ok v => some (m.idx, v) :: gatherAux ms dead
      | .error _ => none :: gatherAux ms (workerOf m :: dead)

/-- The replies observed by the reduce phase of `multiply a b`, one per
submitted task, in submission order. -/
def gatherReplies {α : Type} [Add α] [Mul α] [Zero α] (a b : Matrix α) :
    List (Option (Nat × α)) :=
  gatherAux (buildTasks a b) []

/-- The error `rx.recv()?` propagates when a one-shot channel is closed
without a value (the `oneshot::RecvError` surfaced through `anyhow`). -/
def recvErrMsg : String := "receiving on closed channel"

/-- The reduce phase of `multiply` (matrix.rs lines 88–92):
`for rx in receivers { let rst = rx.recv()?; data[rst.idx] = rst.value; }`.
A closed channel (`none`) aborts the whole call via `?`; a received
reply is written into the output buffer at its embedded index. -/
def reducePhase {α : Type} [Add α] [Mul α] [Zero α] :
    List (Option (Nat × α)) → List α → Except String (List α)
  | [], data => .ok data
  | none :: _, _ => .error recvErrMsg
  | some (i, v) :: rest, data => reducePhase rest (data.set i v)

/-- One call of `multiply` together with its observable side effects:
how many worker threads were spawned and which tasks were submitted. -/
structure MultiplyTrace (α : Type) where
  result : Except String (Matrix α)
  workersSpawned : Nat
  tasksSubmitted : List (MsgInput α)

/-- `multiply` (matrix.rs lines 34–99), instrumented with its side
effects.  The dimension guard `a.col != b.row` bails before any worker
is spawned or task built; otherwise `THREAD_NUM` workers are spawned,
the output buffer starts as `vec![T::default(); a.row * b.col]`, the
map phase submits one task per output cell, and the reduce phase drains
the per-task reply channels in submission order. -/
def multiplyRun {α : Type} [Add α] [Mul α] [Zero α] (a b : Matrix α) :
    MultiplyTrace α :=
  if a.col ≠ b.row then
    { result := .error "Matrix multiply error: a.col != b.row"
      workersSpawned := 0
      tasksSubmitted := [] }
  else
    let tasks := buildTasks a b
    { result :=
        match reducePhase (gatherAux tasks [])
            (List.replicate (a.row * b.col) 0) with
        | .ok data => .ok { data := data, row := a.row, col := b.col }
        | .error e => .error e
      workersSpawned := THREAD_NUM
      tasksSubmitted := tasks }

/-- `multiply` (matrix.rs): the result of a call. -/
def multiply {α : Type} [Add α] [Mul α] [Zero α] (a b : Matrix α) :
    Except String (Matrix α) :=
  (multiplyRun a b).result

/-- The naive triple-loop reference value of output cell `(i, j)`:
the sum over `t` of `A[i,t] * B[t,j]`, reading the flat row-major
buffers. -/
def naiveCell {α : Type} [Add α] [Mul α] [Zero α] (a b : Matrix α)
    (i j : Nat) : α :=
  ((List.range a.col).map fun t =>
    a.data.getD (i * a.col + t) 0 * b.data.getD (t * b.col + j) 0).foldl
    (fun s x => s + x) 0

/-- Writing a batch of replies `(idx, value)` into the output buffer in
the order given — the reduce phase's effect on the buffer, abstracted
over the order in which replies are consumed. -/
def applyReplies {α : Type} (rs : List (Nat × α)) (data : List α) :
    List α :=
  rs.foldl (fun d p => d.set p.1 p.2) data

/-- The replies of a fully successful run, in submission order. -/
def submissionReplies {α : Type} [Add α] [Mul α] [Zero α]
    (a b : Matrix α) : List (Nat × α) :=
  (buildTasks a b).map fun m => (m.idx, sumZip m.row m.col)

/-! ### List-level lemmas about the slicing and stepping operations -/

/-- `l.getD` commutes with `drop`. -/
theorem getD_drop {α : Type} (l : List α) (n m : Nat) (d : α) :
    (l.drop n).getD m d = l.getD (n + m) d := by
  rw [List.getD_eq_getElem?_getD, List.getD_eq_getElem?_getD,
    List.getElem?_drop]

/-- Starting `stepByAux` with a pending skip count of `c` is the same as
first dropping `c` elements. -/
theorem stepByAux_drop {α : Type} (k : Nat) :
    ∀ (l : List α) (c : Nat), stepByAux l k c = stepBy (l.drop c) k := by
  intro l
  induction l with
  | nil => intro c; simp [stepByAux, stepBy]
  | cons x xs ih =>
    intro c
    cases c with
    | zero => simp [stepBy]
    | succ c => simpa [stepByAux] using ih c

/-- Unfolding rule of `stepBy` on a nonempty list: yield the head, then
skip `k - 1` elements. -/
theorem stepBy_cons {α : Type} (x : α) (xs : List α) (k : Nat) :
    stepBy (x :: xs) k = x :: stepBy (xs.drop (k - 1)) k := by
  rw [stepBy, stepByAux, stepByAux_drop]

/-- Closed form of the column extraction: on a buffer of `r * k`
elements, taking every `k`-th element starting at offset `j < k` yields
exactly the `r` elements at positions `t * k + j`. -/
theorem stepBy_col {α : Type} [Zero α] (k j : Nat) (hj : j < k) :
    ∀ (r : Nat) (l : List α), l.length = r * k →
      stepBy (l.drop j) k =
        (List.range r).map fun t => l.getD (t * k + j) 0 := by
  intro r
  induction r with
  | zero =>
    intro l hl
    have : l = [] := List.eq_nil_of_length_eq_zero (by simpa using hl)
    subst this
    simp [stepBy, stepByAux]
  | succ r ih =>
    intro l hl
    have hjl : j < l.length := by rw [hl, Nat.succ_mul]; omega
    have hgd : l.getD j 0 = l[j] := by
      rw [List.getD_eq_getElem?_getD, List.getElem?_eq_getElem hjl]
      rfl
    have hdrop : l.drop j = l.getD j 0 :: l.drop (j + 1) := by
      rw [List.drop_eq_getElem_cons hjl, hgd]
    have ht : (l.drop (j + 1)).drop (k - 1) = (l.drop k).drop j := by
      rw [List.drop_drop, List.drop_drop]
      congr 1
      omega
    rw [hdrop, stepBy_cons, ht,
      ih (l.drop k) (by rw [List.length_drop, hl, Nat.succ_mul]; omega),
      List.range_succ_eq_map, List.map_cons, List.map_map]
    congr 1
    · rw [Nat.zero_mul, Nat.zero_add]
    · apply List.map_congr_left
      intro t _
      show (l.drop k).getD (t * k + j) 0 = l.getD ((t + 1) * k + j) 0
      rw [getD_drop]
      congr 1
      ring

/-- Closed form of the row extraction: the slice of `n` elements
starting at `s` of a sufficiently long buffer. -/
theorem drop_take_eq_map {α : Type} [Zero α] (l : List α) :
    ∀ (n s : Nat), s + n ≤ l.length →
      (l.drop s).take n = (List.range n).map fun t => l.getD (s + t) 0 := by
  intro n
  induction n with
  | zero => intro s _; simp
  | succ n ih =>
    intro s h
    have hs : s < l.length := by omega
    have hgd : l.getD s 0 = l[s] := by
      rw [List.getD_eq_getElem?_getD, List.getElem?_eq_getElem hs]
      rfl
    rw [List.drop_eq_getElem_cons hs, List.take_succ_cons,
      ih (s + 1) (by omega), List.range_succ_eq_map, List.map_cons,
      List.map_map]
    congr 1
    · rw [Nat.add_zero]
      exact hgd.symm
    · apply List.map_congr_left
      intro t _
      show l.getD (s + 1 + t) 0 = l.getD (s + (t + 1)) 0
      congr 1
      omega

/-- `sumZip` on two equal-index maps over `range n` is the fold of the
pointwise products. -/
theorem sumZip_map {α : Type} [Add α] [Mul α] [Zero α] (n : Nat)
    (f g : Nat → α) :
    sumZip ((List.range n).map f) ((List.range n).map g) =
      ((List.range n).map fun t => f t * g t).foldl (fun s x => s + x) 0 := by
  rw [sumZip, List.zipWith_map, List.zipWith_same]

/-- `dot_product` succeeds on equal-length inputs. -/
theorem dot_product_ok {α : Type} [Add α] [Mul α] [Zero α]
    {a b : List α} (h : a.length = b.length) :
    dot_product a b = .ok (sumZip a b) := by
  simp [dot_product, h]

/-! ### Structure of the task list built by the map phase -/

/-- Row-major enumeration of the output cells yields exactly the linear
indices `0, …, r*c - 1` in order. -/
theorem range_flatMap_idx (c : Nat) :
    ∀ r : Nat,
      ((List.range r).flatMap fun i => (List.range c).map fun j => i * c + j) =
        List.range (r * c) := by
  intro r
  induction r with
  | zero => simp
  | succ r ih =>
    rw [List.range_succ, List.flatMap_append, ih, Nat.succ_mul,
      List.range_add]
    simp

/-- Element lookup in a row-major flat enumeration. -/
theorem flatMap_range_length {β : Type} (f : Nat → List β) (c : Nat)
    (hf : ∀ i, (f i).length = c) :
    ∀ r : Nat, ((List.range r).flatMap f).length = r * c := by
  intro r
  induction r with
  | zero => simp
  | succ r ih =>
    rw [List.range_succ, List.flatMap_append, List.length_append, ih,
      Nat.succ_mul]
    simp [hf]

/-- Element lookup in a row-major flat enumeration: position `i*c + j`
holds the block-`i`, offset-`j` element. -/
theorem flatMap_range_getElem {β : Type} (f : Nat → Nat → β) (c : Nat) :
    ∀ (r i j : Nat), i < r → j < c →
      ((List.range r).flatMap fun i =>
        (List.range c).map (f i))[i * c + j]? = some (f i j) := by
  intro r
  induction r with
  | zero => intro i j hi _; omega
  | succ r ih =>
    intro i j hi hj
    rw [List.range_succ, List.flatMap_append]
    have hlen : ((List.range r).flatMap fun i =>
        (List.range c).map (f i)).length = r * c :=
      flatMap_range_length _ c (fun _ => by simp) r
    by_cases hir : i < r
    · have hpos : i * c + j < r * c := by
        have : (i + 1) * c ≤ r * c := Nat.mul_le_mul_right c hir
        rw [Nat.succ_mul] at this
        omega
      rw [List.getElem?_append_left (by rw [hlen]; exact hpos)]
      exact ih i j hir hj
    · have hieq : i = r := by omega
      subst hieq
      have hge : i * c ≤ i * c + j := by omega
      rw [List.getElem?_append_right (by rw [hlen]; exact hge)]
      rw [hlen]
      simp [List.getElem?_map, List.getElem?_range hj, Nat.add_sub_cancel_left]

/-- The linear indices of the submitted tasks are exactly
`0, …, a.row * b.col - 1`, in submission order: exactly one task is
created per output cell. -/
theorem buildTasks_map_idx {α : Type} (a b : Matrix α) :
    (buildTasks a b).map MsgInput.idx = List.range (a.row * b.col) := by
  rw [buildTasks, List.map_flatMap]
  have h : ∀ i : Nat,
      (((List.range b.col).map fun j =>
        ({ idx := i * b.col + j,
           row := (a.data.drop (i * a.col)).take a.col,
           col := stepBy (b.data.drop j) b.col } : MsgInput α)).map
          MsgInput.idx) =
        (List.range b.col).map fun j => i * b.col + j := by
    intro i
    rw [List.map_map]
    rfl
  calc ((List.range a.row).flatMap fun i =>
          (((List.range b.col).map fun j =>
            ({ idx := i * b.col + j,
               row := (a.data.drop (i * a.col)).take a.col,
               col := stepBy (b.data.drop j) b.col } : MsgInput α)).map
              MsgInput.idx))
      = (List.range a.row).flatMap fun i =>
          (List.range b.col).map fun j => i * b.col + j := by
        exact congrArg _ (funext h)
    _ = List.range (a.row * b.col) := range_flatMap_idx b.col a.row

/-- One task is built per output cell. -/
theorem buildTasks_length {α : Type} (a b : Matrix α) :
    (buildTasks a b).length = a.row * b.col := by
  have h := congrArg List.length (buildTasks_map_idx a b)
  simpa using h

/-- Membership characterization of the task list. -/
theorem mem_buildTasks {α : Type} {a b : Matrix α} {m : MsgInput α} :
    m ∈ buildTasks a b ↔ ∃ i j, i < a.row ∧ j < b.col ∧
      m = { idx := i * b.col + j,
            row := (a.data.drop (i * a.col)).take a.col,
            col := stepBy (b.data.drop j) b.col } := by
  constructor
  · intro hm
    rw [buildTasks] at hm
    obtain ⟨i, hi, hm⟩ := List.mem_flatMap.mp hm
    obtain ⟨j, hj, hm⟩ := List.mem_map.mp hm
    exact ⟨i, j, List.mem_range.mp hi, List.mem_range.mp hj, hm.symm⟩
  · rintro ⟨i, j, hi, hj, rfl⟩
    rw [buildTasks]
    exact List.mem_flatMap.mpr ⟨i, List.mem_range.mpr hi,
      List.mem_map.mpr ⟨j, List.mem_range.mpr hj, rfl⟩⟩

/-- Element lookup of the mapped task list at a linear index. -/
theorem buildTasks_map_getElem {α β : Type} (F : MsgInput α → β)
    (a b : Matrix α) (i j : Nat) (hi : i < a.row) (hj : j < b.col) :
    ((buildTasks a b).map F)[i * b.col + j]? =
      some (F { idx := i * b.col + j,
                row := (a.data.drop (i * a.col)).take a.col,
                col := stepBy (b.data.drop j) b.col }) := by
  rw [buildTasks, List.map_flatMap]
  have h : ((List.range a.row).flatMap fun i =>
      (((List.range b.col).map fun j =>
        ({ idx := i * b.col + j,
           row := (a.data.drop (i * a.col)).take a.col,
           col := stepBy (b.data.drop j) b.col } : MsgInput α)).map F)) =
      (List.range a.row).flatMap fun i =>
        (List.range b.col).map fun j =>
          F { idx := i * b.col + j,
              row := (a.data.drop (i * a.col)).take a.col,
              col := stepBy (b.data.drop j) b.col } := by
    apply congrArg
    funext i
    rw [List.map_map]
    rfl
  rw [h]
  exact flatMap_range_getElem
    (fun i j => F { idx := i * b.col + j,
                    row := (a.data.drop (i * a.col)).take a.col,
                    col := stepBy (b.data.drop j) b.col })
    b.col a.row i j hi hj

/-! ### Gather and reduce phase lemmas -/

/-- When every task's operands have equal lengths, no worker dies:
every reply is delivered, carrying the task's index and inner
product. -/
theorem gatherAux_ok {α : Type} [Add α] [Mul α] [Zero α] :
    ∀ tasks : List (MsgInput α),
      (∀ m ∈ tasks, m.row.length = m.col.length) →
      gatherAux tasks [] =
        tasks.map fun m => some (m.idx, sumZip m.row m.col) := by
  intro tasks
  induction tasks with
  | nil => intro _; simp [gatherAux]
  | cons m ms ih =>
    intro h
    have hm := h m (List.mem_cons_self m ms)
    rw [List.map_cons, ← ih fun m' hm' => h m' (List.mem_cons_of_mem m hm')]
    simp [gatherAux, dot_product_ok hm]

/-- The reduce phase on a list of delivered replies writes each one
into the buffer, in order, and succeeds. -/
theorem reducePhase_somes {α : Type} [Add α] [Mul α] [Zero α] :
    ∀ (rs : List (Nat × α)) (data : List α),
      reducePhase (rs.map some) data = .ok (applyReplies rs data) := by
  intro rs
  induction rs with
  | nil => intro data; simp [reducePhase, applyReplies]
  | cons p ps ih =>
    intro data
    obtain ⟨i, v⟩ := p
    rw [List.map_cons, reducePhase, applyReplies, List.foldl_cons]
    exact ih (data.set i v)

/-- A closed reply channel anywhere in the receiver list makes the
reduce phase fail with the receive error (it neither hangs nor returns
a buffer). -/
theorem reducePhase_error_of_none {α : Type} [Add α] [Mul α] [Zero α] :
    ∀ rs : List (Option (Nat × α)), none ∈ rs →
      ∀ data : List α, reducePhase rs data = .error recvErrMsg := by
  intro rs
  induction rs with
  | nil => intro h; simp at h
  | cons r rs ih =>
    intro h data
    match r with
    | none => rfl
    | some (i, v) =>
      have : none ∈ rs := by
        rcases List.mem_cons.mp h with h' | h'
        · exact absurd h'.symm (by simp)
        · exact h'
      rw [reducePhase]
      exact ih this (data.set i v)

/-- The reduce phase never changes the buffer's length. -/
theorem reducePhase_length {α : Type} [Add α] [Mul α] [Zero α] :
    ∀ (rs : List (Option (Nat × α))) (data d : List α),
      reducePhase rs data = .ok d → d.length = data.length := by
  intro rs
  induction rs with
  | nil =>
    intro data d h
    rw [reducePhase] at h
    cases h
    rfl
  | cons r rs ih =>
    intro data d h
    match r with
    | none => exact absurd h (by rw [reducePhase]; simp)
    | some (i, v) =>
      rw [reducePhase] at h
      have := ih (data.set i v) d h
      simpa using this

/-- Taking one element past a `set` at the cut point splits off the
written value. -/
theorem take_set_succ {α : Type} :
    ∀ (l : List α) (s : Nat) (x : α), s < l.length →
      (l.set s x).take (s + 1) = l.take s ++ [x] := by
  intro l
  induction l with
  | nil => intro s x h; simp at h
  | cons y ys ih =>
    intro s x h
    cases s with
    | zero => simp
    | succ s =>
      rw [List.set_cons_succ, List.take_succ_cons, List.take_succ_cons,
        ih s x (by simpa using h)]
      rfl

/-- Scatter-writing values whose target indices are exactly the
consecutive positions `s, s+1, …` fills the buffer past position `s`
with those values, in order. -/
theorem foldl_set_eq {α : Type} (g : MsgInput α → α) :
    ∀ (tasks : List (MsgInput α)) (s : Nat) (data : List α),
      tasks.map MsgInput.idx = List.range' s tasks.length →
      data.length = s + tasks.length →
      tasks.foldl (fun d m => d.set m.idx (g m)) data =
        data.take s ++ tasks.map g := by
  intro tasks
  induction tasks with
  | nil =>
    intro s data _ hlen
    rw [List.map_nil, List.foldl_nil, List.append_nil,
      List.take_of_length_le (by simpa using hlen.le)]
  | cons m ms ih =>
    intro s data h hlen
    rw [List.map_cons, List.length_cons, List.range'_succ] at h
    have hidx : m.idx = s := (List.cons.injEq _ _ _ _).mp h |>.1
    have htail : ms.map MsgInput.idx = List.range' (s + 1) ms.length :=
      (List.cons.injEq _ _ _ _).mp h |>.2
    rw [List.foldl_cons, hidx,
      ih (s + 1) (data.set s (g m)) htail
        (by rw [List.length_set]; simp at hlen; omega),
      take_set_succ data s (g m) (by simp at hlen; omega)]
    simp

/-- Every task built from matrices satisfying the
`data.len == row*col` invariant has equal-length row and column
operands (both the shared dimension `a.col = b.row`). -/
theorem buildTasks_lengths {α : Type} [Zero α] (a b : Matrix α)
    (hc : a.col = b.row) (ha : a.data.length = a.row * a.col)
    (hb : b.data.length = b.row * b.col) :
    ∀ m ∈ buildTasks a b, m.row.length = m.col.length := by
  intro m hm
  obtain ⟨i, j, hi, hj, rfl⟩ := mem_buildTasks.mp hm
  have hrow : ((a.data.drop (i * a.col)).take a.col).length = a.col := by
    rw [List.length_take, List.length_drop, ha]
    have : (i + 1) * a.col ≤ a.row * a.col := Nat.mul_le_mul_right a.col hi
    rw [Nat.succ_mul] at this
    omega
  have hcol : (stepBy (b.data.drop j) b.col).length = b.row := by
    rw [stepBy_col b.col j hj b.row b.data (by rw [hb, Nat.mul_comm])]
    simp
  show ((a.data.drop (i * a.col)).take a.col).length =
    (stepBy (b.data.drop j) b.col).length
  rw [hrow, hcol, hc]

/-- Writing the replies of a fully successful run into the initial
all-default buffer, in submission order, produces the buffer that lists
each task's inner product at its linear index. -/
theorem applyReplies_submission {α : Type} [Add α] [Mul α] [Zero α]
    (a b : Matrix α) :
    applyReplies (submissionReplies a b)
      (List.replicate (a.row * b.col) 0) =
      (buildTasks a b).map fun m => sumZip m.row m.col := by
  rw [submissionReplies, applyReplies, List.foldl_map]
  rw [foldl_set_eq (fun m => sumZip m.row m.col) (buildTasks a b) 0
    (List.replicate (a.row * b.col) 0)
    (by rw [buildTasks_map_idx, buildTasks_length, List.range_eq_range'])
    (by rw [List.length_replicate, buildTasks_length, Nat.zero_add])]
  rfl

/-- Characterization of a successful `multiply`: for compatible inputs
satisfying the buffer invariant, the call returns the matrix whose flat
buffer lists, in linear-index order, the inner product of each task's
operands. -/
theorem multiply_ok_eq {α : Type} [Add α] [Mul α] [Zero α]
    (a b : Matrix α) (hc : a.col = b.row)
    (ha : a.data.length = a.row * a.col)
    (hb : b.data.length = b.row * b.col) :
    multiply a b =
      .ok { data := (buildTasks a b).map fun m => sumZip m.row m.col,
            row := a.row, col := b.col } := by
  have hlen := buildTasks_lengths a b hc ha hb
  rw [multiply, multiplyRun, if_neg (by simp [hc])]
  dsimp only
  rw [gatherAux_ok (buildTasks a b) hlen]
  have hm : ((buildTasks a b).map fun m => some (m.idx, sumZip m.row m.col)) =
      (submissionReplies a b).map some := by
    rw [submissionReplies, List.map_map]
    rfl
  rw [hm, reducePhase_somes, applyReplies_submission a b]

/-- Any list is the map of its positional reads over `range`. -/
theorem self_eq_range_map {α : Type} [Zero α] (l : List α) :
    l = (List.range l.length).map fun t => l.getD t 0 := by
  have h := drop_take_eq_map l l.length 0 (by omega)
  simp only [List.drop_zero, List.take_length, Nat.zero_add] at h
  exact h

/-! ### Claim theorems -/

/-- C8: `dot_product(row, col)` fails with the length-mismatch error if
and only if `row.length != col.length`; with equal lengths it returns
`Ok` of the inner product, the sum over `i` of `row[i] * col[i]`. -/
theorem C8_dot_product_spec {α : Type} [Add α] [Mul α] [Zero α]
    (r c : List α) :
    dot_product r c =
      if r.length = c.length then
        .ok (((List.range r.length).map fun i =>
          r.getD i 0 * c.getD i 0).foldl (fun s x => s + x) 0)
      else .error "Dot product error: a.len != b.len" := by
  by_cases h : r.length = c.length
  · rw [if_pos h, dot_product_ok h]
    congr 1
    conv_lhs => rw [self_eq_range_map r, self_eq_range_map c]
    rw [← h, sumZip_map]
  · simp [dot_product, h]

/-- C2: when `A.cols != B.rows`, `multiply` fails with the dimension
mismatch error before doing any work: zero worker threads are spawned
and no task is submitted, so no partial output can exist. -/
theorem C2_dimension_mismatch {α : Type} [Add α] [Mul α] [Zero α]
    (a b : Matrix α) (h : a.col ≠ b.row) :
    multiply a b = .error "Matrix multiply error: a.col != b.row" ∧
      (multiplyRun a b).workersSpawned = 0 ∧
      (multiplyRun a b).tasksSubmitted = [] := by
  refine ⟨?_, ?_, ?_⟩ <;> simp [multiply, multiplyRun, h]

/-- Witness for C2 at the spec's scenario 3: A is 2×3, B is 2×2. -/
theorem C2_witness :
    multiply (Matrix.new ([1, 2, 3, 4, 5, 6] : List Int) 2 3)
        (Matrix.new ([1, 2, 3, 4] : List Int) 2 2) =
      .error "Matrix multiply error: a.col != b.row" ∧
      (multiplyRun (Matrix.new ([1, 2, 3, 4, 5, 6] : List Int) 2 3)
        (Matrix.new ([1, 2, 3, 4] : List Int) 2 2)).workersSpawned = 0 ∧
      (multiplyRun (Matrix.new ([1, 2, 3, 4, 5, 6] : List Int) 2 3)
        (Matrix.new ([1, 2, 3, 4] : List Int) 2 2)).tasksSubmitted = [] :=
  C2_dimension_mismatch _ _ (by decide)

/-- With zero output rows or columns, no task is built. -/
theorem buildTasks_eq_nil {α : Type} (a b : Matrix α)
    (h : a.row = 0 ∨ b.col = 0) : buildTasks a b = [] := by
  have hh := buildTasks_length a b
  rcases h with h | h <;>
    exact List.eq_nil_of_length_eq_zero (by rw [hh, h]; ring)

/-- C10: for compatible matrices with zero output rows or columns,
`multiply` succeeds with an empty buffer and the map phase submits no
task to any worker. -/
theorem C10_empty_output {α : Type} [Add α] [Mul α] [Zero α]
    (a b : Matrix α) (hc : a.col = b.row) (h : a.row = 0 ∨ b.col = 0) :
    multiply a b = .ok { data := [], row := a.row, col := b.col } ∧
      (multiplyRun a b).tasksSubmitted = [] := by
  have hnil := buildTasks_eq_nil a b h
  have hrep : List.replicate (a.row * b.col) (0 : α) = [] := by
    rcases h with h | h <;> simp [h]
  constructor
  · rw [multiply, multiplyRun, if_neg (by simp [hc])]
    dsimp only
    rw [hnil, hrep]
    rfl
  · rw [multiplyRun, if_neg (by simp [hc])]
    dsimp only
    exact hnil

/-- Witness for C10: a 0×2 matrix times a 2×3 matrix. -/
theorem C10_witness :
    multiply (Matrix.new ([] : List Int) 0 2)
        (Matrix.new ([1, 2, 3, 4, 5, 6] : List Int) 2 3) =
      .ok { data := [], row := 0, col := 3 } ∧
      (multiplyRun (Matrix.new ([] : List Int) 0 2)
        (Matrix.new ([1, 2, 3, 4, 5, 6] : List Int) 2 3)).tasksSubmitted =
        [] :=
  C10_empty_output _ _ rfl (Or.inl rfl)

/-- C7 counterexample: `Matrix::new` performs no validation, so it can
produce a value violating `data.length == rows * cols` — here a claimed
2×2 matrix whose buffer holds 3 elements. -/
theorem C7_counterexample :
    ¬ ((Matrix.new ([1, 2, 3] : List Int) 2 2).data.length =
        (Matrix.new ([1, 2, 3] : List Int) 2 2).row *
          (Matrix.new ([1, 2, 3] : List Int) 2 2).col) := by decide

/-- C7 (amended): the constructor does not enforce the invariant, but
every matrix produced by a successful `multiply` satisfies
`data.length == rows * cols`. -/
theorem C7_multiply_invariant {α : Type} [Add α] [Mul α] [Zero α]
    (a b m : Matrix α) (h : multiply a b = .ok m) :
    m.data.length = m.row * m.col := by
  rw [multiply, multiplyRun] at h
  by_cases hc : a.col ≠ b.row
  · rw [if_pos hc] at h
    exact absurd h (by simp)
  · rw [if_neg hc] at h
    dsimp only at h
    cases hred : reducePhase (gatherAux (buildTasks a b) [])
        (List.replicate (a.row * b.col) (0 : α)) with
    | error e =>
      rw [hred] at h
      exact absurd h (by simp)
    | ok d =>
      rw [hred] at h
      have hm : m = { data := d, row := a.row, col := b.col } := by
        injection h with h'
        exact h'.symm
      subst hm
      have := reducePhase_length _ _ _ hred
      simpa using this

/-- Witness for C7 (amended), at the spec's scenario 1. -/
theorem C7_witness :
    (Matrix.mk ([7, 10, 15, 22] : List Int) 2 2).data.length =
      (Matrix.mk ([7, 10, 15, 22] : List Int) 2 2).row *
        (Matrix.mk ([7, 10, 15, 22] : List Int) 2 2).col :=
  C7_multiply_invariant (Matrix.new [1, 2, 3, 4] 2 2)
    (Matrix.new [1, 2, 3, 4] 2 2) _ (by decide)

/-- C4: past the dimension guard, if any task's reply channel is closed
without a value having been sent (its worker died before sending), the
whole `multiply` call fails with the receive error — it does not hang
and no output matrix is produced, discarding all partial results. -/
theorem C4_worker_failure {α : Type} [Add α] [Mul α] [Zero α]
    (a b : Matrix α) (hc : a.col = b.row)
    (h : none ∈ gatherReplies a b) :
    multiply a b = .error recvErrMsg := by
  rw [gatherReplies] at h
  rw [multiply, multiplyRun, if_neg (by simp [hc])]
  dsimp only
  rw [reducePhase_error_of_none (gatherAux (buildTasks a b) []) h
    (List.replicate (a.row * b.col) 0)]

/-- Witness for C4: B claims to be 2×1 but carries a single element, so
the single task's dot product fails, its worker dies without replying,
and `multiply` surfaces the closed channel as an error. -/
theorem C4_witness :
    multiply (Matrix.new ([1, 2] : List Int) 1 2)
        (Matrix.new ([5] : List Int) 2 1) = .error recvErrMsg :=
  C4_worker_failure _ _ rfl (by decide)

/-- C1: for every pair of compatible matrices A (r×k) and B (k×c) with
`A.cols == B.rows` (buffers satisfying the size invariant),
`multiply(A, B)` returns `Ok` of a matrix with `rows = A.rows` and
`cols = B.cols` whose every cell `(i, j)` equals the naive triple-loop
reference value, the sum over `t` of `A[i,t] * B[t,j]`. -/
theorem C1_multiply_matches_naive {α : Type} [Add α] [Mul α] [Zero α]
    (a b : Matrix α) (hc : a.col = b.row)
    (ha : a.data.length = a.row * a.col)
    (hb : b.data.length = b.row * b.col) :
    ∃ m, multiply a b = .ok m ∧ m.row = a.row ∧ m.col = b.col ∧
      ∀ i j, i < a.row → j < b.col →
        m.data.getD (i * b.col + j) 0 = naiveCell a b i j := by
  refine ⟨_, multiply_ok_eq a b hc ha hb, rfl, rfl, ?_⟩
  intro i j hi hj
  show ((buildTasks a b).map fun m =>
    sumZip m.row m.col).getD (i * b.col + j) 0 = naiveCell a b i j
  rw [List.getD_eq_getElem?_getD,
    buildTasks_map_getElem (fun m => sumZip m.row m.col) a b i j hi hj]
  show sumZip ((a.data.drop (i * a.col)).take a.col)
    (stepBy (b.data.drop j) b.col) = naiveCell a b i j
  have hrow : i * a.col + a.col ≤ a.data.length := by
    have : (i + 1) * a.col ≤ a.row * a.col := Nat.mul_le_mul_right a.col hi
    rw [Nat.succ_mul] at this
    omega
  rw [drop_take_eq_map a.data a.col (i * a.col) hrow,
    stepBy_col b.col j hj b.row b.data (by rw [hb, Nat.mul_comm]), ← hc,
    sumZip_map]
  rfl

/-- Witness for C1 at the spec's scenario 2: a 2×2 times a 2×3. -/
theorem C1_witness :
    ∃ m, multiply (Matrix.new ([1, 2, 3, 4] : List Int) 2 2)
        (Matrix.new ([1, 2, 3, 4, 5, 6] : List Int) 2 3) = .ok m ∧
      m.row = 2 ∧ m.col = 3 ∧
      ∀ i j, i < 2 → j < 3 →
        m.data.getD (i * 3 + j) 0 =
          naiveCell (Matrix.new ([1, 2, 3, 4] : List Int) 2 2)
            (Matrix.new ([1, 2, 3, 4, 5, 6] : List Int) 2 3) i j :=
  C1_multiply_matches_naive _ _ rfl (by decide) (by decide)

/-- C6: for every output cell `(i, j)`, the map phase builds a task
whose linear index is `i*B.cols + j`, whose row operand lists the
elements `A.data[i*A.cols + t]` for `t < A.cols` (row `i` of A), and
whose column operand — obtained by taking every `B.cols`-th element of
B's flat buffer starting at offset `j` — lists the elements
`B.data[t*B.cols + j]` for `t < B.rows` (column `j` of B). -/
theorem C6_task_contents {α : Type} [Zero α] (a b : Matrix α) (i j : Nat)
    (ha : a.data.length = a.row * a.col)
    (hb : b.data.length = b.row * b.col)
    (hi : i < a.row) (hj : j < b.col) :
    ({ idx := i * b.col + j,
       row := (List.range a.col).map fun t => a.data.getD (i * a.col + t) 0,
       col := (List.range b.row).map fun t =>
         b.data.getD (t * b.col + j) 0 } : MsgInput α) ∈ buildTasks a b := by
  have hrow : i * a.col + a.col ≤ a.data.length := by
    have : (i + 1) * a.col ≤ a.row * a.col := Nat.mul_le_mul_right a.col hi
    rw [Nat.succ_mul] at this
    omega
  refine mem_buildTasks.mpr ⟨i, j, hi, hj, ?_⟩
  rw [drop_take_eq_map a.data a.col (i * a.col) hrow,
    stepBy_col b.col j hj b.row b.data (by rw [hb, Nat.mul_comm])]

/-- Witness for C6 at cell (1, 2) of the spec's scenario 2. -/
theorem C6_witness :
    ({ idx := 1 * 3 + 2,
       row := (List.range 2).map fun t =>
         ([1, 2, 3, 4] : List Int).getD (1 * 2 + t) 0,
       col := (List.range 2).map fun t =>
         ([1, 2, 3, 4, 5, 6] : List Int).getD (t * 3 + 2) 0 } :
      MsgInput Int) ∈
      buildTasks (Matrix.new ([1, 2, 3, 4] : List Int) 2 2)
        (Matrix.new ([1, 2, 3, 4, 5, 6] : List Int) 2 3) :=
  C6_task_contents _ _ 1 2 (by decide) (by decide) (by decide) (by decide)

/-- C5: during a successful `multiply`, exactly one task is created per
output index (the submitted tasks' indices are exactly
`0, …, rows*cols - 1`), exactly one reply is delivered and consumed per
task, each task is routed to worker `idx % THREAD_NUM`, and output cell
`idx` holds exactly the inner product of the unique task carrying that
index. -/
theorem C5_task_reply_bijection {α : Type} [Add α] [Mul α] [Zero α]
    (a b : Matrix α) (hc : a.col = b.row)
    (ha : a.data.length = a.row * a.col)
    (hb : b.data.length = b.row * b.col) :
    (buildTasks a b).map MsgInput.idx = List.range (a.row * b.col) ∧
      gatherReplies a b =
        (buildTasks a b).map (fun m => some (m.idx, sumZip m.row m.col)) ∧
      (∀ m ∈ buildTasks a b, workerOf m = m.idx % THREAD_NUM) ∧
      ∃ res, multiply a b = .ok res ∧
        ∀ p, p < a.row * b.col →
          ∃ t, (buildTasks a b)[p]? = some t ∧ t.idx = p ∧
            res.data[p]? = some (sumZip t.row t.col) := by
  refine ⟨buildTasks_map_idx a b, ?_, fun m _ => rfl, ?_⟩
  · rw [gatherReplies]
    exact gatherAux_ok _ (buildTasks_lengths a b hc ha hb)
  · refine ⟨_, multiply_ok_eq a b hc ha hb, ?_⟩
    intro p hp
    have h1 : ((buildTasks a b).map MsgInput.idx)[p]? = some p := by
      rw [buildTasks_map_idx a b]
      exact List.getElem?_range hp
    rw [List.getElem?_map] at h1
    obtain ⟨t, ht, hidx⟩ := Option.map_eq_some'.mp h1
    refine ⟨t, ht, hidx, ?_⟩
    show ((buildTasks a b).map fun m => sumZip m.row m.col)[p]? =
      some (sumZip t.row t.col)
    rw [List.getElem?_map, ht]
    rfl

/-- Witness for C5 at the spec's scenario 1. -/
theorem C5_witness :
    ((buildTasks (Matrix.new ([1, 2, 3, 4] : List Int) 2 2)
        (Matrix.new ([1, 2, 3, 4] : List Int) 2 2)).map MsgInput.idx =
      List.range (2 * 2)) ∧
      gatherReplies (Matrix.new ([1, 2, 3, 4] : List Int) 2 2)
          (Matrix.new ([1, 2, 3, 4] : List Int) 2 2) =
        (buildTasks (Matrix.new ([1, 2, 3, 4] : List Int) 2 2)
          (Matrix.new ([1, 2, 3, 4] : List Int) 2 2)).map
          (fun m => some (m.idx, sumZip m.row m.col)) ∧
      (∀ m ∈ buildTasks (Matrix.new ([1, 2, 3, 4] : List Int) 2 2)
          (Matrix.new ([1, 2, 3, 4] : List Int) 2 2),
        workerOf m = m.idx % THREAD_NUM) ∧
      ∃ res, multiply (Matrix.new ([1, 2, 3, 4] : List Int) 2 2)
          (Matrix.new ([1, 2, 3, 4] : List Int) 2 2) = .ok res ∧
        ∀ p, p < 2 * 2 →
          ∃ t, (buildTasks (Matrix.new ([1, 2, 3, 4] : List Int) 2 2)
              (Matrix.new ([1, 2, 3, 4] : List Int) 2 2))[p]? = some t ∧
            t.idx = p ∧ res.data[p]? = some (sumZip t.row t.col) :=
  C5_task_reply_bijection _ _ rfl (by decide) (by decide)

/-- C3 counterexample: a worker given a single task whose dot product
fails (operand lengths 1 and 0) sends no reply at all — the task is
dropped without a reply ever being sent, refuting the claim that the
failure is reported through the task's reply channel. -/
theorem C3_counterexample :
    ¬ ((workerRun [({ idx := 0, row := [1], col := [] } :
        MsgInput Int)]).1.length =
      [({ idx := 0, row := [1], col := [] } : MsgInput Int)].length) := by
  decide

/-- C3 (amended): when a task's dot product fails, the worker sends no
reply for it — the closure returns the error via `?`, so only the tasks
before the failing one (all succeeding) get replies, the failing task
and every later task in that worker's queue are dropped, and the worker
thread terminates with the error.  (The dropped reply senders are what
the orchestrator later observes as closed channels.) -/
theorem C3_worker_drops_on_error {α : Type} [Add α] [Mul α] [Zero α]
    (pre post : List (MsgInput α)) (m : MsgInput α) (e : String)
    (hpre : ∀ m' ∈ pre, (dot_product m'.row m'.col).isOk = true)
    (hm : dot_product m.row m.col = .error e) :
    (workerRun (pre ++ m :: post)).1.length = pre.length ∧
      (workerRun (pre ++ m :: post)).2 = .error e := by
  revert hpre
  induction pre with
  | nil =>
    intro _
    simp [workerRun, hm]
  | cons p ps ih =>
    intro hpre
    have hp := hpre p (List.mem_cons_self p ps)
    cases hdp : dot_product p.row p.col with
    | error e' =>
      rw [hdp] at hp
      exact absurd hp (by simp [Except.isOk, Except.toBool])
    | ok v =>
      have ih' := ih fun m' hm' => hpre m' (List.mem_cons_of_mem p hm')
      constructor
      · simp only [List.cons_append, workerRun, hdp, List.length_cons,
          List.append_eq]
        rw [ih'.1]
      · simp only [List.cons_append, workerRun, hdp]
        exact ih'.2

/-- Witness for C3 (amended): queue of three tasks whose middle task
fails; the one preceding task gets a reply, the closure errors. -/
theorem C3_witness :
    (workerRun ([({ idx := 0, row := [1], col := [2] } : MsgInput Int)] ++
        ({ idx := 1, row := [1], col := [] } : MsgInput Int) ::
        [({ idx := 2, row := [3], col := [4] } : MsgInput Int)])).1.length =
      [({ idx := 0, row := [1], col := [2] } : MsgInput Int)].length ∧
      (workerRun ([({ idx := 0, row := [1], col := [2] } : MsgInput Int)] ++
        ({ idx := 1, row := [1], col := [] } : MsgInput Int) ::
        [({ idx := 2, row := [3], col := [4] } : MsgInput Int)])).2 =
      .error "Dot product error: a.len != b.len" :=
  C3_worker_drops_on_error _ _ _ _ (by decide) (by decide)

/-- The final buffer does not depend on the order in which replies with
pairwise-distinct target indices are written. -/
theorem applyReplies_perm_eq {α : Type} :
    ∀ {rs₁ rs₂ : List (Nat × α)}, rs₁.Perm rs₂ →
      (rs₁.map Prod.fst).Nodup →
      ∀ data : List α, applyReplies rs₁ data = applyReplies rs₂ data := by
  intro rs₁ rs₂ hperm
  induction hperm with
  | nil => intro _ _; rfl
  | cons x p ih =>
    intro hnd data
    rw [applyReplies, List.foldl_cons, applyReplies, List.foldl_cons]
    exact ih ((List.nodup_cons.mp (by simpa using hnd)).2) (data.set x.1 x.2)
  | swap x y l =>
    intro hnd data
    rw [applyReplies, List.foldl_cons, List.foldl_cons, applyReplies,
      List.foldl_cons, List.foldl_cons]
    have hxy : y.1 ≠ x.1 := by
      rw [List.map_cons, List.map_cons, List.nodup_cons] at hnd
      exact fun h => hnd.1 (by rw [h]; exact List.mem_cons_self _ _)
    rw [List.set_comm _ _ _ hxy]
  | trans p₁ p₂ ih₁ ih₂ =>
    intro hnd data
    rw [ih₁ hnd data, ih₂ (((p₁.map Prod.fst).nodup_iff).mp hnd) data]

/-- C9: `multiply` is deterministic.  The replies of a run are a pure
function of the inputs, and for ANY completion order of the workers —
any permutation `arrival` of the run's replies — writing them into the
initial buffer yields the same output matrix, namely the one `multiply`
returns.  Two calls on identical inputs therefore produce bit-identical
results regardless of worker scheduling. -/
theorem C9_deterministic {α : Type} [Add α] [Mul α] [Zero α]
    (a b : Matrix α) (arrival : List (Nat × α)) (hc : a.col = b.row)
    (ha : a.data.length = a.row * a.col)
    (hb : b.data.length = b.row * b.col)
    (hp : arrival.Perm (submissionReplies a b)) :
    multiply a b =
      .ok { data := applyReplies arrival (List.replicate (a.row * b.col) 0),
            row := a.row, col := b.col } := by
  have hnd : ((submissionReplies a b).map Prod.fst).Nodup := by
    have h : ((buildTasks a b).map MsgInput.idx).Nodup := by
      rw [buildTasks_map_idx]
      exact List.nodup_range _
    rw [submissionReplies, List.map_map]
    exact h
  rw [applyReplies_perm_eq hp (((hp.map Prod.fst).nodup_iff).mpr hnd),
    applyReplies_submission a b]
  exact multiply_ok_eq a b hc ha hb

/-- Witness for C9: at scenario 1, consuming the replies in reversed
completion order still assembles `multiply`'s result. -/
theorem C9_witness :
    multiply (Matrix.new ([1, 2, 3, 4] : List Int) 2 2)
        (Matrix.new ([1, 2, 3, 4] : List Int) 2 2) =
      .ok { data := applyReplies
              ((submissionReplies (Matrix.new ([1, 2, 3, 4] : List Int) 2 2)
                (Matrix.new ([1, 2, 3, 4] : List Int) 2 2)).reverse)
              (List.replicate (2 * 2) 0),
            row := 2, col := 2 } :=
  C9_deterministic _ _ _ rfl (by decide) (by decide)
    (List.reverse_perm _)

example :
    multiply (Matrix.new [1, 2, 3, 4] 2 2) (Matrix.new [1, 2, 3, 4] 2 2) =
      .ok (Matrix.new ([7, 10, 15, 22] : List Int) 2 2) := by decide

example :
    multiply (Matrix.new [1, 2, 3, 4] 2 2)
        (Matrix.new [1, 2, 3, 4, 5, 6] 2 3) =
      .ok (Matrix.new ([9, 12, 15, 19, 26, 33] : List Int) 2 3) := by decide

example :
    multiply (Matrix.new ([1, 2, 3, 4, 5, 6] : List Int) 2 3)
        (Matrix.new [1, 2, 3, 4] 2 2) =
      .error "Matrix multiply error: a.col != b.row" := by decide

example :
    multiply (Matrix.new ([1, 2] : List Int) 1 2) (Matrix.new [5] 2 1) =
      .error recvErrMsg := by decide

end RustConc
